import Mathlib

/-!
Shallow embedding of core/facebook_soup_parser.py (FacebookSoupParser).

Python strings are modelled as List Char.  HTML documents, which the Python
code receives as raw markup and feeds through BeautifulSoup, are modelled as
already-parsed node trees (inductive Node below); the markup loader itself is
out of scope per the spec.  Python exceptions that can escape a function are
modelled with Except Unit: Except.error () means an exception propagates to
the caller, Except.ok none models a Python None result, Except.ok (some r)
a successful record.

External collaborators (model.parse_date and datetime.fromtimestamp, both
pure formatting functions per the spec) are passed in as function
parameters.
-/

namespace FBScrape

abbrev LChar := List Char

/-- Shorthand turning a Lean string literal into the List Char model of a
Python string. -/
def lc (s : String) : LChar := s.toList

/-! ### Python string primitives used by the source -/

/-- Python str.isspace class for the characters relevant here (the
whitespace stripped by str.strip with no argument). -/
def isPySpace (c : Char) : Bool :=
  c = ' ' || c = '\t' || c = '\n' || c = '\r' || c = '\x0b' || c = '\x0c'

/-- Python s.strip(): remove leading and trailing whitespace. -/
def stripWs (s : LChar) : LChar :=
  ((s.dropWhile isPySpace).reverse.dropWhile isPySpace).reverse

/-- Python s.split(sep)[0] for a non-empty sep: the part of s before the
first occurrence of sep, or all of s when sep does not occur. -/
def splitFirst (sep : LChar) : LChar → LChar
  | [] => []
  | c :: rest =>
    if sep.isPrefixOf (c :: rest) then []
    else c :: splitFirst sep rest

/-- Drop sep from the front of s when sep is a prefix of s. -/
def dropPref (sep : LChar) (s : LChar) : Option LChar :=
  match sep, s with
  | [], s => some s
  | _ :: _, [] => none
  | p :: ps, c :: cs => if p = c then dropPref ps cs else none

/-- Everything after the first occurrence of sep in s (none when sep does
not occur).  Python s.split(sep)[1] is splitFirst sep applied to this. -/
def afterFirst (sep : LChar) : LChar → Option LChar
  | [] => if sep.isEmpty then some [] else none
  | c :: rest =>
    match dropPref sep (c :: rest) with
    | some r => some r
    | none => afterFirst sep rest

/-- Python substring containment: pat in s. -/
def isSub (pat : LChar) : LChar → Bool
  | [] => pat.isEmpty
  | c :: rest => pat.isPrefixOf (c :: rest) || isSub pat rest

/-- Python s.split(" "): chunks of s between single space characters,
empty chunks kept. -/
def splitSp : LChar → List LChar
  | [] => [[]]
  | c :: cs =>
    match splitSp cs with
    | [] => [[]]
    | h :: t => if c = ' ' then [] :: h :: t else (c :: h) :: t

/-- Python s.replace(" ", "_") style single-character replacement is not
needed; s.replace(",", "") removes every comma. -/
def removeCommas (s : LChar) : LChar := s.filter (fun c => c ≠ ',')

/-- Python content_string.replace(" .", "."): every non-overlapping
occurrence of space-dot collapses to a dot, scanning left to right. -/
def fixDots : LChar → LChar
  | ' ' :: '.' :: rest => '.' :: fixDots rest
  | c :: rest => c :: fixDots rest
  | [] => []

/-- Numeric value of a digit string (used on strings already known to be
all digits, like the first group matched by the regex d+). -/
def digitsVal (s : LChar) : Nat :=
  s.foldl (fun n c => n * 10 + (c.toNat - '0'.toNat)) 0

/-- First maximal run of decimal digits in s: re.findall(r"d+", s)[0]
when a digit exists, [] otherwise. -/
def firstDigitRun : LChar → LChar
  | [] => []
  | c :: cs => if c.isDigit then c :: cs.takeWhile Char.isDigit else firstDigitRun cs

/-- Python int(s) on a decimal string: surrounding whitespace and one
optional sign are allowed, then at least one digit; none models the
ValueError raised otherwise. -/
def pyInt (s : LChar) : Option Int :=
  let core : LChar → Option Int := fun t =>
    if t ≠ [] ∧ t.all Char.isDigit then some (Int.ofNat (digitsVal t)) else none
  match stripWs s with
  | '+' :: ds => core ds
  | '-' :: ds => (core ds).map Int.neg
  | ds => core ds

/-- Python re.search(r"like_d+", s): somewhere in s the text like_ is
followed immediately by a decimal digit. -/
def hasLikePat : LChar → Bool
  | [] => false
  | c :: rest =>
    (match dropPref (lc "like_") (c :: rest) with
     | some (d :: _) => d.isDigit
     | _ => false) || hasLikePat rest

/-- Python re.search(r"d+ Comment", s): a match exists exactly when some
digit in s is immediately followed by the text space-Comment. -/
def hasDigitComment : LChar → Bool
  | [] => false
  | c :: rest => (c.isDigit && (lc " Comment").isPrefixOf rest) || hasDigitComment rest

/-! ### The parsed-markup tree (BeautifulSoup node model) -/

/-- One node of the parsed page: a NavigableString or a Tag with its
attribute list and children in document order. -/
inductive Node where
  | text (s : LChar)
  | elem (tag : LChar) (attrs : List (LChar × LChar)) (children : List Node)

/-- Tag name: None for a NavigableString (modern bs4 behaviour). -/
def nameOf : Node → Option LChar
  | .text _ => none
  | .elem t _ _ => some t

/-- Attribute list of a tag (empty for a NavigableString). -/
def attrsOf : Node → List (LChar × LChar)
  | .text _ => []
  | .elem _ a _ => a

/-- Children of a tag in document order. -/
def childrenOf : Node → List Node
  | .text _ => []
  | .elem _ _ cs => cs

/-- Attribute lookup: node.attrs[name] as an Option. -/
def getAttr (name : LChar) (n : Node) : Option LChar :=
  (attrsOf n).lookup name

mutual

/-- BeautifulSoup node.find(...): first descendant, in document
(pre-order) order, satisfying the predicate.  The node itself is not a
candidate, matching bs4. -/
def findN (p : Node → Bool) : Node → Option Node
  | .text _ => none
  | .elem _ _ cs => findL p cs

/-- Search a sibling list: each node, then its descendants, then the
following siblings. -/
def findL (p : Node → Bool) : List Node → Option Node
  | [] => none
  | n :: ns =>
    if p n then some n
    else
      match findN p n with
      | some r => some r
      | none => findL p ns

end

mutual

/-- BeautifulSoup node.find_all(...): every descendant satisfying the
predicate, in document (pre-order) order. -/
def findAllN (p : Node → Bool) : Node → List Node
  | .text _ => []
  | .elem _ _ cs => findAllL p cs

/-- find_all over a sibling list. -/
def findAllL (p : Node → Bool) : List Node → List Node
  | [] => []
  | n :: ns => (if p n then [n] else []) ++ findAllN p n ++ findAllL p ns

end

mutual

/-- BeautifulSoup node.strings: the NavigableString descendants of a tag,
in document order. -/
def stringsN : Node → List LChar
  | .text _ => []
  | .elem _ _ cs => stringsL cs

/-- strings over a sibling list. -/
def stringsL : List Node → List LChar
  | [] => []
  | .text s :: ns => s :: stringsL ns
  | .elem t a cs :: ns => stringsN (.elem t a cs) ++ stringsL ns

end

/-- BeautifulSoup node.text: concatenation of all string descendants. -/
def textOf (n : Node) : LChar := (stringsN n).flatten

/-- BeautifulSoup node.string: for a NavigableString, itself; for a tag
with exactly one child, that child recursively; None otherwise. -/
def stringOf : Node → Option LChar
  | .text s => some s
  | .elem _ _ [c] => stringOf c
  | .elem _ _ _ => none

/-- The text the h3 scan works on: the NavigableString itself, or
child.text for a tag. -/
def textOfChild : Node → LChar
  | .text s => s
  | n => textOf n

end FBScrape

namespace FBScrape

/-! ### parse_post (FacebookSoupParser.parse_post, lines 633-839) -/

/-- Lines 751-755 of parse_post: the participant suffix strip.  All five
split(...)[0] calls are applied in sequence, each one to the result of
the previous one. -/
def strip_id (s : LChar) : LChar :=
  splitFirst (lc "&lst")
    (splitFirst (lc "&fref")
      (splitFirst (lc "?lst")
        (splitFirst (lc "?refid=18")
          (splitFirst (lc "&refid=18") s))))

/-- The href target of a link node with the leading slash removed
(link.attrs["href"][1:], applied to links already filtered to carry an
href starting with a slash). -/
def targetOf (l : Node) : LChar := ((getAttr (lc "href") l).getD []).drop 1

/-- Lines 744-760 of parse_post: fold the participant rules over the
links found in one child, extending the accumulated participant list.
The error case models the IndexError raised by split("/profile.php?id=")[1]
when a target contains /profile.php but not /profile.php?id=. -/
def processLinks : List Node → List LChar → Except Unit (List LChar)
  | [], parts => .ok parts
  | l :: ls, parts =>
    let linkFound := targetOf l
    if isSub (lc "/profile.php") linkFound then
      match afterFirst (lc "/profile.php?id=") linkFound with
      | none => .error ()
      | some r =>
        let ids := splitFirst (lc "&") (splitFirst (lc "/profile.php?id=") r)
        processLinks ls (parts ++ [ids])
    else
      let idFound := strip_id linkFound
      if idFound ≠ linkFound ∧ ¬ parts.contains idFound ∧
          isSub (lc "/photos/") idFound = false ∧
          isSub (lc "story.php?") idFound = false then
        processLinks ls (parts ++ [idFound])
      else
        processLinks ls parts

/-- Does a link target begin with a slash (the href regex of line 743)? -/
def hrefSlash (n : Node) : Bool :=
  match getAttr (lc "href") n with
  | some ( '/' :: _) => true
  | _ => false

/-- Lines 739-767 of parse_post: walk the children of the article until
the first child carrying a data-ft attribute (the metadata block),
collecting participants and the per-child text chunks.  NavigableString
children have no attrs and are skipped entirely. -/
def scanChildren : List Node → List LChar → List LChar →
    Except Unit (List LChar × List LChar)
  | [], parts, conts => .ok (parts, conts)
  | child :: rest, parts, conts =>
    match child with
    | .text _ => scanChildren rest parts conts
    | .elem t a cs =>
      if (a.lookup (lc "data-ft")).isSome then .ok (parts, conts)
      else
        match processLinks (findAllN hrefSlash (.elem t a cs)) parts with
        | .error e => .error e
        | .ok parts2 =>
          let subs := ((stringsN (.elem t a cs)).map stripWs).filter (fun s => s ≠ [])
          scanChildren rest parts2 (conts ++ [List.intercalate (lc " ") subs])

/-- In the with branch of the h3 scan the anchor is the child itself when
the child is an a tag, else child.find("a"); a NavigableString child or a
missing anchor makes the subsequent attribute access raise. -/
def withTarget (child : Node) : Except Unit Node :=
  if nameOf child == some (lc "a") then .ok child
  else
    match child with
    | .text _ => .error ()
    | n =>
      match findN (fun m => nameOf m == some (lc "a")) n with
      | some a => .ok a
      | none => .error ()

/-- In the location branch the code always calls child.find("a"),
raising when the child is a NavigableString or holds no anchor. -/
def locTarget (child : Node) : Except Unit Node :=
  match child with
  | .text _ => .error ()
  | n =>
    match findN (fun m => nameOf m == some (lc "a")) n with
    | some a => .ok a
    | none => .error ()

/-- element.attrs["href"] with the KeyError modelled. -/
def hrefAttr (n : Node) : Except Unit LChar :=
  match getAttr (lc "href") n with
  | some h => .ok h
  | none => .error ()

/-- The word list a child contributes to the h3 clause scan:
text.strip().lower().split(" "). -/
def h3Words (child : Node) : List LChar :=
  splitSp ((stripWs (textOfChild child)).map Char.toLower)

/-- Lines 783-813 of parse_post: the header clause state machine over the
children of the h3 element.  A span child terminates the scan.  A pending
with or location flag consumes the current child by extracting an anchor
name and its href truncated at the first ampersand; the same child then
still runs the with/and/at word checks. -/
def scanH3 (withs : List (LChar × LChar)) (loc : Option (LChar × LChar))
    (withExist locExist : Bool) :
    List Node → Except Unit (List (LChar × LChar) × Option (LChar × LChar))
  | [] => .ok (withs, loc)
  | child :: rest =>
    if nameOf child == some (lc "span") then .ok (withs, loc)
    else
      match (if withExist then
               match withTarget child with
               | .error e => .error e
               | .ok a =>
                 match hrefAttr a with
                 | .error e => .error e
                 | .ok h => .ok (withs ++ [(textOf a, splitFirst (lc "&") h)], false)
             else .ok (withs, withExist) : Except Unit _) with
      | .error e => .error e
      | .ok (withs2, we2) =>
        match (if locExist then
                 match locTarget child with
                 | .error e => .error e
                 | .ok a =>
                   match hrefAttr a with
                   | .error e => .error e
                   | .ok h => .ok (some (textOf a, splitFirst (lc "&") h), false)
               else .ok (loc, locExist) : Except Unit _) with
        | .error e => .error e
        | .ok (loc2, le2) =>
          let ws := h3Words child
          let we3 := we2 || ws.contains (lc "with") || ws.contains (lc "and")
          let le3 := le2 || ws.contains (lc "at")
          scanH3 withs2 loc2 we3 le3 rest

/-- The record parse_post returns (the OrderedDict of lines 833-839). -/
structure Post where
  post_id : Nat
  content : LChar
  location : Option (LChar × LChar)
  participants : List LChar
  date : LChar
  date_org : LChar
  like_count : Int
  comment_count : Int
  story_link : LChar
deriving DecidableEq

/-- FacebookSoupParser.parse_post on one article node.  nd models the
external collaborator model.parse_date composed with str (a pure function
per the spec).  Except.ok none is the Python None (post skipped); the
error case is an exception escaping parse_post. -/
def parse_post (nd : LChar → LChar) (article : Node) : Except Unit (Option Post) :=
  match scanChildren (childrenOf article) [] [] with
  | .error e => .error e
  | .ok (participants, conts) =>
    let content := fixDots (List.intercalate (lc " - ") conts)
    match findN (fun n => nameOf n == some (lc "abbr")) article with
    | none => .ok none
    | some dateTag =>
      let dateOrg := textOf dateTag
      let date := nd dateOrg
      match findN (fun n => (getAttr (lc "id") n).elim false hasLikePat) article with
      | none => .ok none
      | some spanTag =>
        let postId := digitsVal (firstDigitRun ((getAttr (lc "id") spanTag).getD []))
        match findN (fun n => nameOf n == some (lc "h3")) article with
        | none => .error ()
        | some h3 =>
          match scanH3 [] none false false (childrenOf h3) with
          | .error e => .error e
          | .ok (_withs, loc) =>
            let likeRes : Except Unit Int :=
              match findN (fun n => nameOf n == some (lc "a") &&
                  (getAttr (lc "aria-label") n).elim false (isSub (lc "reaction"))) spanTag with
              | some a =>
                match pyInt (removeCommas (textOf a)) with
                | some k => .ok k
                | none => .error ()
              | none => .ok 0
            match likeRes with
            | .error e => .error e
            | .ok likeCount =>
              let commentRes : Except Unit Int :=
                match findN (fun n => nameOf n == some (lc "a") &&
                    (stringOf n).elim false hasDigitComment) article with
                | some a =>
                  match pyInt (removeCommas (splitFirst (lc " Comment") (textOf a))) with
                  | some k => .ok k
                  | none => .error ()
                | none => .ok 0
              match commentRes with
              | .error e => .error e
              | .ok commentCount =>
                let storyLink :=
                  match findN (fun n => nameOf n == some (lc "a") &&
                      stringOf n == some (lc "Full Story")) article with
                  | some a => (getAttr (lc "href") a).getD []
                  | none => []
                .ok (some { post_id := postId, content := content, location := loc,
                            participants := participants, date := date,
                            date_org := dateOrg, like_count := likeCount,
                            comment_count := commentCount, story_link := storyLink })

end FBScrape

namespace FBScrape

/-! ### parse_timeline_page (lines 841-953) and parse_timeline_years_links -/

/-- The candidate timeline container identifiers, in the order written in
the source (line 926-928). -/
def timelineIds : List LChar :=
  [lc "tlFeed", lc "timelineBody", lc "m_group_stories_container",
   lc "structured_composer_async_container"]

/-- The Container Locator: soup.find(id=[...]).  BeautifulSoup matches any
tag whose id attribute equals one of the candidate identifiers and returns
the first such tag in document order. -/
def findByIds (ids : List LChar) (doc : Node) : Option Node :=
  findN (fun n => (getAttr (lc "id") n).elim false (fun v => ids.contains v)) doc

/-- OrderedDict assignment d[k] = v: an existing key keeps its position
and gets the new value, a new key is appended. -/
def upsert (m : List (Nat × Post)) (k : Nat) (v : Post) : List (Nat × Post) :=
  match m with
  | [] => [(k, v)]
  | (k2, v2) :: rest => if k2 = k then (k, v) :: rest else (k2, v2) :: upsert rest k v

/-- Lines 934-944: run parse_post over each article node in document
order, skip None results and insert each record into the ordered mapping
keyed by post_id, later occurrences overwriting earlier ones. -/
def processArticles (nd : LChar → LChar) :
    List Node → List (Nat × Post) → Except Unit (List (Nat × Post))
  | [], acc => .ok acc
  | a :: rest, acc =>
    match parse_post nd a with
    | .error e => .error e
    | .ok none => processArticles nd rest acc
    | .ok (some p) => processArticles nd rest (upsert acc p.post_id p)

/-- The TimelineResult named tuple. -/
structure TimelineResult where
  articles : List (Nat × Post)
  show_more_link : LChar
deriving DecidableEq

/-- FacebookSoupParser.parse_timeline_page on a parsed document.  The
page-level None (container not found) is the outer none. -/
def parse_timeline_page (nd : LChar → LChar) (doc : Node) :
    Except Unit (Option TimelineResult) :=
  match findByIds timelineIds doc with
  | none => .ok none
  | some main =>
    match processArticles nd (findAllN (fun n => nameOf n == some (lc "article")) main) [] with
    | .error e => .error e
    | .ok articles =>
      let showMore :=
        match findN (fun n => nameOf n == some (lc "a") &&
            (stringOf n == some (lc "Show more") ||
             stringOf n == some (lc "See more posts"))) doc with
        | some t => (getAttr (lc "href") t).getD []
        | none => []
      .ok (some { articles := articles, show_more_link := showMore })

/-! ### parse_reaction_page (lines 955-1015) -/

/-- The ReactionResult named tuple: see_more_link none is Python None,
distinct from the empty string. -/
structure ReactionResult where
  likers : List LChar
  see_more_link : Option LChar
deriving DecidableEq

/-- soup.find(id="objects_container"). -/
def findObjectsContainer (doc : Node) : Option Node :=
  findN (fun n => getAttr (lc "id") n == some (lc "objects_container")) doc

/-- Lines 992-1007: collect the liker usernames inside the container:
every link whose target starts with a slash, has no role attribute, and
whose target with the slash removed is non-empty and contains none of the
invalid fragments. -/
def likersOf (main : Node) : List LChar :=
  (findAllN hrefSlash main).foldl
    (fun acc l =>
      if (getAttr (lc "role") l).isSome then acc
      else
        let username := targetOf l
        if username ≠ [] ∧
            isSub (lc "add_friend.php") username = false ∧
            isSub (lc "ufi/reaction") username = false ∧
            isSub (lc "home.php?") username = false then
          acc ++ [username]
        else acc) []

/-- Lines 1009-1012: the See more link inside the container, None when
the anchor is absent or carries no href. -/
def seeMoreOf (main : Node) : Option LChar :=
  match findN (fun n => nameOf n == some (lc "a") &&
      stringOf n == some (lc "See more")) main with
  | some t => getAttr (lc "href") t
  | none => none

/-- FacebookSoupParser.parse_reaction_page on a parsed document: none is
the page-level not-found sentinel, some the ReactionResult. -/
def parse_reaction_page (doc : Node) : Option ReactionResult :=
  match findObjectsContainer doc with
  | none => none
  | some main => some { likers := likersOf main, see_more_link := seeMoreOf main }

/-! ### The birthday block of parse_about_page (lines 243-254) -/

/-- Lines 243-254 of parse_about_page: the raw birthday string is kept
verbatim as day_and_month_of_birth when it does not contain exactly two
space characters; otherwise the first two split(" ") chunks joined by a
space become day_and_month_of_birth and int() of the last chunk becomes
year_of_birth, the error case modelling the ValueError of int. -/
def processBirthday (s : LChar) : Except Unit (LChar × Option Int) :=
  if s.count ' ' ≠ 2 then .ok (s, none)
  else
    let chunks := splitSp s
    match pyInt ((chunks.getLast?).getD []) with
    | some n => .ok (List.intercalate (lc " ") (chunks.take 2), some n)
    | none => .error ()

/-! ### parse_buddy_list (lines 44-104) -/

/-- Lines 96-100 of parse_buddy_list: the times list of one user entry
carrying a lat field.  fmt models str(datetime.fromtimestamp(int(t))),
an external pure formatting collaborator. -/
def latTimes (fmt : Int → LChar) (lat : Int) : List LChar :=
  if lat > -1 then [fmt lat] else []

/-- Lexicographic string order on char codes, as Python compares str. -/
def lexLe : LChar → LChar → Bool
  | [], _ => true
  | _ :: _, [] => false
  | a :: as, b :: bs =>
    if a.toNat < b.toNat then true
    else if b.toNat < a.toNat then false
    else lexLe as bs

/-- Insertion into a key-sorted association list. -/
def insByKey (x : LChar × List LChar) :
    List (LChar × List LChar) → List (LChar × List LChar)
  | [] => [x]
  | y :: ys => if lexLe x.1 y.1 then x :: y :: ys else y :: insByKey x ys

/-- sorted(d.items()): ascending lexicographic key order. -/
def sortByKey (l : List (LChar × List LChar)) : List (LChar × List LChar) :=
  l.foldr insByKey []

/-- Lines 93-104 of parse_buddy_list: keep the entries of the buddy list
that carry a lat field, build their times lists and sort by user id
string. -/
def processBuddyList (fmt : Int → LChar) (bl : List (LChar × Option Int)) :
    List (LChar × List LChar) :=
  sortByKey (bl.filterMap (fun e =>
    match e.2 with
    | some lat => some (e.1, latTimes fmt lat)
    | none => none))

end FBScrape

namespace FBScrape

/-! ### Concrete inputs for the end-to-end and counterexample claims -/

/-- The C1 scenario node: one article whose metadata block (the data-ft
child) holds the like_151 id element, the raw date text, no
reaction-indicator link and a 12 Comments link; the header element is
present and empty. -/
def c1Article : Node :=
  .elem (lc "article") [] [
    .elem (lc "h3") [] [],
    .elem (lc "div") [(lc "data-ft", lc "foo")] [
      .elem (lc "abbr") [] [.text (lc "13 May 2008 at 10:02")],
      .elem (lc "span") [(lc "id", lc "like_151")] [],
      .elem (lc "a") [(lc "href", lc "/link3")] [.text (lc "12 Comments")]]]

/-- The record parse_post produces for c1Article. -/
def c1Expected (nd : LChar → LChar) : Post :=
  { post_id := 151, content := [], location := none, participants := [],
    date := nd (lc "13 May 2008 at 10:02"), date_org := lc "13 May 2008 at 10:02",
    like_count := 0, comment_count := 12, story_link := [] }

/-- C1: a content node whose metadata block holds id 151, raw date text
13 May 2008 at 10:02, no reaction-indicator link and a 12 Comments link
yields a record with post_id 151, like_count 0, comment_count 12, the
verbatim date text, no participants and an empty story link. -/
theorem claim_C1 : ∀ nd : LChar → LChar,
    parse_post nd c1Article = .ok (some (c1Expected nd)) ∧
    (c1Expected nd).post_id = 151 ∧ (c1Expected nd).like_count = 0 ∧
    (c1Expected nd).comment_count = 12 ∧
    (c1Expected nd).date_org = lc "13 May 2008 at 10:02" ∧
    (c1Expected nd).participants = [] ∧ (c1Expected nd).story_link = [] :=
  fun _ => ⟨rfl, rfl, rfl, rfl, rfl, rfl, rfl⟩

/-- An article carrying its metadata block (abbr date and like_152 id
element) but no h3 header element, exactly the shape of the parse_post
doctests. -/
def c2Article : Node :=
  .elem (lc "article") [] [
    .elem (lc "div") [(lc "data-ft", lc "foo")] [
      .elem (lc "abbr") [] [.text (lc "14 May 2008 at 10:02")],
      .elem (lc "span") [(lc "id", lc "like_152")] []]]

/-- C2: evaluating parse_post at the failing input.  The claim says no
exception ever propagates for a single malformed post node, and the
doctests of parse_post expect records for header-less articles, but the
code dereferences soup.find("h3") without a None check, so an
AttributeError escapes on this node. -/
theorem claim_C2 : ∀ nd : LChar → LChar, parse_post nd c2Article = .error () :=
  fun _ => rfl

end FBScrape

namespace FBScrape

/-! ### Properties of the suffix strip (claims C3 and C10) -/

/-- The part before the first occurrence of sep is a prefix of s. -/
theorem splitFirst_pre (sep : LChar) : ∀ s : LChar, splitFirst sep s <+: s
  | [] => by simp [splitFirst]
  | c :: rest => by
    rw [splitFirst]
    by_cases h : sep.isPrefixOf (c :: rest) = true
    · simp [h]
    · rw [if_neg h]
      obtain ⟨t, ht⟩ := splitFirst_pre sep rest
      exact ⟨t, by rw [List.cons_append, ht]⟩

/-- The empty pattern occurs in every string. -/
theorem isSub_nil_pat : ∀ t : LChar, isSub [] t = true
  | [] => rfl
  | _ :: _ => by simp [isSub, List.isPrefixOf]

/-- Occurrence of a pattern survives appending on the right. -/
theorem isSub_append (pat : LChar) :
    ∀ l t : LChar, isSub pat l = true → isSub pat (l ++ t) = true
  | [], t, h => by
    rw [isSub] at h
    rw [List.isEmpty_iff] at h
    subst h
    simpa using isSub_nil_pat t
  | c :: l2, t, h => by
    rw [List.cons_append, isSub]
    rw [isSub] at h
    rcases Bool.or_eq_true_iff.mp h with hp | hs
    · have hpp : pat <+: c :: l2 := List.isPrefixOf_iff_prefix.mp hp
      have : pat <+: c :: (l2 ++ t) := by
        rw [← List.cons_append]
        exact hpp.trans (List.prefix_append (c :: l2) t)
      simp [ List.isPrefixOf_iff_prefix.mpr this]
    · simp [isSub_append pat l2 t hs]

/-- A pattern absent from s is absent from every prefix of s. -/
theorem not_isSub_of_pre (pat : LChar) {l s : LChar} (hp : l <+: s)
    (h : isSub pat s = false) : isSub pat l = false := by
  by_contra hc
  rw [Bool.not_eq_false] at hc
  obtain ⟨t, ht⟩ := hp
  have := isSub_append pat l t hc
  rw [ht, h] at this
  cases this

/-- splitFirst removes every occurrence of its separator. -/
theorem isSub_splitFirst (sep : LChar) (hne : sep ≠ []) :
    ∀ s : LChar, isSub sep (splitFirst sep s) = false
  | [] => by
    rw [splitFirst, isSub]
    simpa using hne
  | c :: rest => by
    rw [splitFirst]
    by_cases h : sep.isPrefixOf (c :: rest) = true
    · rw [if_pos h, isSub]
      simpa using hne
    · rw [if_neg h, isSub]
      have ih := isSub_splitFirst sep hne rest
      have hp : sep.isPrefixOf (c :: splitFirst sep rest) = false := by
        by_contra hcc
        rw [Bool.not_eq_false] at hcc
        have hpp : sep <+: c :: splitFirst sep rest := List.isPrefixOf_iff_prefix.mp hcc
        rcases sep with _ | ⟨p, ps⟩
        · exact hne rfl
        · rw [List.cons_prefix_cons] at hpp
          obtain ⟨hpc, hps⟩ := hpp
          have : p :: ps <+: c :: rest := by
            rw [List.cons_prefix_cons]
            exact ⟨hpc, hps.trans (splitFirst_pre (p :: ps) rest)⟩
          rw [ List.isPrefixOf_iff_prefix.mpr this] at h
          exact h rfl
      simp [hp, ih]

/-- splitFirst is the identity when its separator does not occur. -/
theorem splitFirst_id_of_not_sub (sep : LChar) :
    ∀ s : LChar, isSub sep s = false → splitFirst sep s = s
  | [], _ => rfl
  | c :: rest, h => by
    rw [isSub, Bool.or_eq_false_iff] at h
    rw [splitFirst, if_neg (by simp [h.1]), splitFirst_id_of_not_sub sep rest h.2]

/-- Equation form of strip_id for targeted rewriting. -/
theorem strip_id_eq (s : LChar) : strip_id s =
    splitFirst (lc "&lst")
      (splitFirst (lc "&fref")
        (splitFirst (lc "?lst")
          (splitFirst (lc "?refid=18")
            (splitFirst (lc "&refid=18") s)))) := rfl

/-- The stripped identifier is a prefix of the raw link target. -/
theorem strip_id_pre (s : LChar) : strip_id s <+: s := by
  rw [strip_id_eq]
  exact (splitFirst_pre _ _).trans ((splitFirst_pre _ _).trans
    ((splitFirst_pre _ _).trans ((splitFirst_pre _ _).trans (splitFirst_pre _ _))))

/-- None of the five suffix markers occurs in a stripped identifier. -/
theorem strip_id_nosub (s : LChar) :
    isSub (lc "&refid=18") (strip_id s) = false ∧
    isSub (lc "?refid=18") (strip_id s) = false ∧
    isSub (lc "?lst") (strip_id s) = false ∧
    isSub (lc "&fref") (strip_id s) = false ∧
    isSub (lc "&lst") (strip_id s) = false := by
  rw [strip_id_eq]
  refine ⟨?_, ?_, ?_, ?_, ?_⟩
  · exact not_isSub_of_pre _
      ((splitFirst_pre _ _).trans ((splitFirst_pre _ _).trans
        ((splitFirst_pre _ _).trans (splitFirst_pre _ _))))
      (isSub_splitFirst _ (by decide) _)
  · exact not_isSub_of_pre _
      ((splitFirst_pre _ _).trans ((splitFirst_pre _ _).trans (splitFirst_pre _ _)))
      (isSub_splitFirst _ (by decide) _)
  · exact not_isSub_of_pre _
      ((splitFirst_pre _ _).trans (splitFirst_pre _ _))
      (isSub_splitFirst _ (by decide) _)
  · exact not_isSub_of_pre _ (splitFirst_pre _ _) (isSub_splitFirst _ (by decide) _)
  · exact isSub_splitFirst _ (by decide) _

/-- The participant-suffix strip the spec describes: try the five markers
in the stated order and stop at the first one that occurs.  Written from
the words of the spec, for comparison with strip_id from the source. -/
def stripSpecOneMarker (s : LChar) : LChar :=
  if isSub (lc "&refid=18") s then splitFirst (lc "&refid=18") s
  else if isSub (lc "?refid=18") s then splitFirst (lc "?refid=18") s
  else if isSub (lc "?lst") s then splitFirst (lc "?lst") s
  else if isSub (lc "&fref") s then splitFirst (lc "&fref") s
  else if isSub (lc "&lst") s then splitFirst (lc "&lst") s
  else s

/-- C3 counterexample: on the target user&fref=x&refid=18 the code strips
with the first marker and then strips the marker &fref from the result as
well, producing user, while the stop-at-first-match rule of the claim
would produce user&fref=x. -/
theorem claim_C3_counterexample :
    strip_id (lc "user&fref=x&refid=18") = lc "user" ∧
    stripSpecOneMarker (lc "user&fref=x&refid=18") = lc "user&fref=x" ∧
    ¬ (lc "user" = lc "user&fref=x") :=
  ⟨rfl, rfl, by decide⟩

/-- C3 amended: the five markers are applied in sequence, each split to
the result of the previous one, so several markers can be stripped from
one target; the final identifier is a prefix of the target in which none
of the five markers occurs. -/
theorem claim_C3 : ∀ s : LChar, strip_id s <+: s ∧
    isSub (lc "&refid=18") (strip_id s) = false ∧
    isSub (lc "?refid=18") (strip_id s) = false ∧
    isSub (lc "?lst") (strip_id s) = false ∧
    isSub (lc "&fref") (strip_id s) = false ∧
    isSub (lc "&lst") (strip_id s) = false :=
  fun s => ⟨strip_id_pre s, strip_id_nosub s⟩

/-- C10: the participant suffix strip is idempotent; an already stripped
identifier is left unchanged because no marker occurs in it any more. -/
theorem claim_C10 : ∀ s : LChar, strip_id (strip_id s) = strip_id s := by
  intro s
  obtain ⟨h1, h2, h3, h4, h5⟩ := strip_id_nosub s
  rw [strip_id_eq (strip_id s)]
  rw [splitFirst_id_of_not_sub _ _ h1, splitFirst_id_of_not_sub _ _ h2,
      splitFirst_id_of_not_sub _ _ h3, splitFirst_id_of_not_sub _ _ h4,
      splitFirst_id_of_not_sub _ _ h5]

end FBScrape

namespace FBScrape

/-! ### Participant uniqueness (claim C4) -/

/-- An article whose pre-metadata region holds two identical
profile.php links, followed by an empty header and the metadata block. -/
def c4Article : Node :=
  .elem (lc "article") [] [
    .elem (lc "div") [] [
      .elem (lc "a") [(lc "href", lc "/x/profile.php?id=3333&r")] [],
      .elem (lc "a") [(lc "href", lc "/x/profile.php?id=3333&r")] []],
    .elem (lc "h3") [] [],
    .elem (lc "div") [(lc "data-ft", lc "foo")] [
      .elem (lc "abbr") [] [.text (lc "13 May 2008 at 10:02")],
      .elem (lc "span") [(lc "id", lc "like_9")] []]]

/-- The record parse_post produces for c4Article: the numeric id 3333
appears twice in participants. -/
def c4Part : Post :=
  { post_id := 9, content := lc " - ", location := none,
    participants := [lc "3333", lc "3333"], date := lc "13 May 2008 at 10:02",
    date_org := lc "13 May 2008 at 10:02", like_count := 0, comment_count := 0,
    story_link := [] }

/-- C4 counterexample: the profile.php branch of the participant loop
appends numeric ids without the membership check, so a returned record
can carry the same normalized identifier twice. -/
theorem claim_C4_counterexample :
    parse_post (fun s => s) c4Article = .ok (some c4Part) ∧
    ¬ c4Part.participants.Nodup :=
  ⟨rfl, by decide⟩

/-- Accumulator invariant of the participant loop when every link takes
the suffix-stripping branch: the loop never raises, only appends, keeps
the accumulated list duplicate-free, and the appended identifiers are the
stripped targets in discovery order (a sublist of the per-link strips). -/
theorem processLinks_inv :
    ∀ (ls : List Node) (parts : List LChar),
      (∀ l ∈ ls, isSub (lc "/profile.php") (targetOf l) = false) →
      parts.Nodup →
      ∃ extra, processLinks ls parts = .ok (parts ++ extra) ∧
        (parts ++ extra).Nodup ∧
        extra.Sublist (ls.map (fun l => strip_id (targetOf l)))
  | [], parts, _, hnd => ⟨[], by simp [processLinks], by simpa using hnd, by simp⟩
  | l :: ls2, parts, hprof, hnd => by
    have hl := hprof l (List.mem_cons_self l ls2)
    have hrest : ∀ x ∈ ls2, isSub (lc "/profile.php") (targetOf x) = false :=
      fun x hx => hprof x (List.mem_cons_of_mem l hx)
    simp only [processLinks, hl, Bool.false_eq_true, if_false]
    split
    case isTrue hc =>
      have hmem : ¬ strip_id (targetOf l) ∈ parts := by
        have := hc.2.1
        simpa using this
      have hnd2 : (parts ++ [strip_id (targetOf l)]).Nodup :=
        ( List.perm_append_singleton _ _).nodup_iff.mpr (List.nodup_cons.mpr ⟨hmem, hnd⟩)
      obtain ⟨extra2, heq, hnd3, hsub⟩ :=
        processLinks_inv ls2 (parts ++ [strip_id (targetOf l)]) hrest hnd2
      refine ⟨strip_id (targetOf l) :: extra2, ?_, ?_, ?_⟩
      · rw [heq]
        simp
      · simpa [List.append_assoc] using hnd3
      · simpa using hsub.cons₂ (strip_id (targetOf l))
    case isFalse hc =>
      obtain ⟨extra2, heq, hnd3, hsub⟩ := processLinks_inv ls2 parts hrest hnd
      exact ⟨extra2, heq, hnd3, by simpa using hsub.cons _⟩

/-- C4 amended: identifiers produced by the suffix-stripping branch are
unique and appear in discovery order (the participant list is a sublist
of the stripped targets); only the profile.php branch can introduce
duplicates, since it appends without the membership check. -/
theorem claim_C4 : ∀ ls : List Node,
    (∀ l ∈ ls, isSub (lc "/profile.php") (targetOf l) = false) →
    ∃ res, processLinks ls [] = .ok res ∧ res.Nodup ∧
      res.Sublist (ls.map (fun l => strip_id (targetOf l))) := by
  intro ls h
  obtain ⟨extra, heq, hnd, hsub⟩ := processLinks_inv ls [] h List.nodup_nil
  exact ⟨extra, by simpa using heq, by simpa using hnd, hsub⟩

/-- Two plain links with strippable suffixes, used to instantiate C4. -/
def c4wLinks : List Node :=
  [.elem (lc "a") [(lc "href", lc "/username1?lst=42")] [],
   .elem (lc "a") [(lc "href", lc "/username2&fref=nf")] []]

/-- Witness for C4 at a concrete link list. -/
theorem claim_C4_witness :
    processLinks c4wLinks [] = Except.ok [lc "username1", lc "username2"] ∧
    ([lc "username1", lc "username2"] : List LChar).Nodup := by
  refine ⟨rfl, ?_⟩
  obtain ⟨res, heq, hnd, _⟩ := claim_C4 c4wLinks (by decide)
  have h0 : processLinks c4wLinks [] = Except.ok [lc "username1", lc "username2"] := rfl
  have h2 := h0.symm.trans heq
  injection h2 with h3
  rwa [← h3] at hnd

end FBScrape

namespace FBScrape

/-! ### Container locator order (claim C5) -/

/-- A timeline page holding two candidate containers, the timelineBody
one before the tlFeed one in document order. -/
def c5Doc : Node :=
  .elem (lc "html") [] [
    .elem (lc "div") [(lc "id", lc "timelineBody")] [.text (lc "B")],
    .elem (lc "div") [(lc "id", lc "tlFeed")] [.text (lc "A")]]

/-- The same two containers in the opposite document order. -/
def c5Doc2 : Node :=
  .elem (lc "html") [] [
    .elem (lc "div") [(lc "id", lc "tlFeed")] [.text (lc "A")],
    .elem (lc "div") [(lc "id", lc "timelineBody")] [.text (lc "B")]]

/-- C5 counterexample: on a page holding both a tlFeed and a timelineBody
container with timelineBody first in document order, the locator returns
the timelineBody node although tlFeed comes first in the candidate list,
so candidate-list priority does not decide the result. -/
theorem claim_C5_counterexample :
    (findByIds timelineIds c5Doc).bind (getAttr (lc "id")) = some (lc "timelineBody") ∧
    (findN (fun n => getAttr (lc "id") n == some (lc "tlFeed")) c5Doc).isSome = true :=
  ⟨rfl, rfl⟩

/-- C5 amended: the locator treats the candidate list as a mere
membership set (any permutation of the candidates yields the same
result) and returns the first node in document order whose identifier is
among the candidates, as the two concrete two-container pages show. -/
theorem claim_C5 :
    (∀ (doc : Node) (ids ids2 : List LChar), List.Perm ids ids2 →
      findByIds ids doc = findByIds ids2 doc) ∧
    (findByIds timelineIds c5Doc).bind (getAttr (lc "id")) = some (lc "timelineBody") ∧
    (findByIds timelineIds c5Doc2).bind (getAttr (lc "id")) = some (lc "tlFeed") := by
  refine ⟨?_, rfl, rfl⟩
  intro doc ids ids2 hp
  unfold findByIds
  congr 1
  funext n
  cases h : getAttr (lc "id") n with
  | none => rfl
  | some v => simp [hp.mem_iff]

/-- Witness for C5: permuting the candidate list leaves the located
container unchanged on a concrete page. -/
theorem claim_C5_witness :
    findByIds timelineIds c5Doc = findByIds timelineIds.reverse c5Doc :=
  claim_C5.1 c5Doc timelineIds timelineIds.reverse (List.reverse_perm timelineIds).symm

/-! ### Duplicate post overwrite (claim C6) -/

/-- C6: when two content nodes in document order parse to records sharing
one post_id, the assembly loop of parse_timeline_page keeps exactly one
entry for that id, holding the later record (and hence its date). -/
theorem claim_C6 : ∀ (nd : LChar → LChar) (n1 n2 : Node) (p1 p2 : Post),
    parse_post nd n1 = .ok (some p1) → parse_post nd n2 = .ok (some p2) →
    p1.post_id = p2.post_id →
    processArticles nd [n1, n2] [] = .ok [(p2.post_id, p2)] := by
  intro nd n1 n2 p1 p2 h1 h2 hid
  simp [processArticles, upsert, h1, h2, hid]

/-- First article of the C6 witness: id 77 with the earlier date. -/
def c6aArticle : Node :=
  .elem (lc "article") [] [
    .elem (lc "h3") [] [],
    .elem (lc "div") [(lc "data-ft", lc "foo")] [
      .elem (lc "abbr") [] [.text (lc "13 May 2008 at 10:02")],
      .elem (lc "span") [(lc "id", lc "like_77")] []]]

/-- Second article of the C6 witness: same id 77, later date. -/
def c6bArticle : Node :=
  .elem (lc "article") [] [
    .elem (lc "h3") [] [],
    .elem (lc "div") [(lc "data-ft", lc "foo")] [
      .elem (lc "abbr") [] [.text (lc "13 May 2008 at 10:25")],
      .elem (lc "span") [(lc "id", lc "like_77")] []]]

/-- Record parsed from c6aArticle. -/
def c6aPost : Post :=
  { post_id := 77, content := [], location := none, participants := [],
    date := lc "13 May 2008 at 10:02", date_org := lc "13 May 2008 at 10:02",
    like_count := 0, comment_count := 0, story_link := [] }

/-- Record parsed from c6bArticle. -/
def c6bPost : Post :=
  { post_id := 77, content := [], location := none, participants := [],
    date := lc "13 May 2008 at 10:25", date_org := lc "13 May 2008 at 10:25",
    like_count := 0, comment_count := 0, story_link := [] }

/-- Witness for C6 on two concrete articles sharing post id 77. -/
theorem claim_C6_witness :
    processArticles (fun s => s) [c6aArticle, c6bArticle] [] = .ok [(77, c6bPost)] :=
  claim_C6 (fun s => s) c6aArticle c6bArticle c6aPost c6bPost rfl rfl rfl

end FBScrape


namespace FBScrape

/-! ### Birthday decomposition (claim C7) -/

/-- splitSp never returns the empty chunk list. -/
theorem splitSp_ne : ∀ s : LChar, splitSp s ≠ []
  | [] => by simp [splitSp]
  | c :: cs => by
    rw [splitSp]
    rcases h : splitSp cs with _ | ⟨hd, tl⟩
    · simp
    · by_cases hc : c = ' ' <;> simp [hc]

/-- The number of split(" ") chunks is the space count plus one. -/
theorem splitSp_len : ∀ s : LChar, (splitSp s).length = s.count ' ' + 1
  | [] => by simp [splitSp]
  | c :: cs => by
    rw [splitSp]
    rcases h : splitSp cs with _ | ⟨hd, tl⟩
    · exact absurd h (splitSp_ne cs)
    · have ih := splitSp_len cs
      rw [h] at ih
      simp only [List.length_cons] at ih
      by_cases hc : c = ' '
      · subst hc
        simp [List.count_cons]
        omega
      · simp [List.count_cons, hc]
        omega

/-- Joining two chunks with a single space. -/
theorem intercalate_pair (a b : LChar) :
    List.intercalate (lc " ") [a, b] = a ++ ' ' :: b := by
  simp [List.intercalate, List.intersperse, lc]

/-- C7 counterexample: the string 1-space-space-2 has two
whitespace-separated tokens, so the claim requires it verbatim with no
year, but the code keys on the count of space characters being two and
splits it, producing day 1-space and year 2. -/
theorem claim_C7_counterexample :
    processBirthday (lc "1  2") = .ok (lc "1 ", some 2) ∧ ¬ (lc "1 " = lc "1  2") :=
  ⟨rfl, by decide⟩

/-- C7 amended: the decomposition keys on the raw string containing
exactly two space characters (equivalently, splitting on single spaces
into exactly three chunks, empties kept): then day_and_month_of_birth is
the first two chunks joined by a space and year_of_birth the last chunk
through int(); any other space count keeps the string verbatim with no
year. -/
theorem claim_C7 : ∀ s : LChar,
    (s.count ' ' ≠ 2 → processBirthday s = .ok (s, none)) ∧
    (∀ a b c : LChar, splitSp s = [a, b, c] → ∀ n : Int, pyInt c = some n →
      processBirthday s = .ok (a ++ ' ' :: b, some n)) := by
  intro s
  constructor
  · intro h
    rw [processBirthday, if_pos h]
  · intro a b c hsp n hint
    have hcount : s.count ' ' = 2 := by
      have hl := splitSp_len s
      rw [hsp] at hl
      simp at hl
      omega
    rw [processBirthday, if_neg (by simp [hcount])]
    simp only [hsp, List.getLast?, List.take, Option.getD, hint, intercalate_pair]
    simp [List.getLast, hint]

end FBScrape

namespace FBScrape

/-- Witness for C7 on the doctest birthday 14 May 1984. -/
theorem claim_C7_witness :
    processBirthday (lc "14 May 1984") = .ok (lc "14" ++ ' ' :: lc "May", some 1984) :=
  (claim_C7 (lc "14 May 1984")).2 (lc "14") (lc "May") (lc "1984") rfl 1984 rfl

/-! ### Reaction page sentinels (claim C8) -/

/-- A reaction page whose container holds only a See-more anchor; its
target contains ufi/reaction, so it is filtered out of the likers. -/
def c8Page : Node :=
  .elem (lc "html") [] [
    .elem (lc "div") [(lc "id", lc "objects_container")] [
      .elem (lc "a") [(lc "href", lc "/ufi/reaction/link")] [
        .elem (lc "span") [] [.text (lc "See more")]]]]

/-- C8 counterexample: a found container with zero valid likers can still
carry a See-more anchor, so the result is not always the empty-list,
see_more_link-None pair the claim states. -/
theorem claim_C8_counterexample :
    parse_reaction_page c8Page =
      some { likers := [], see_more_link := some (lc "/ufi/reaction/link") } ∧
    parse_reaction_page c8Page ≠ some { likers := [], see_more_link := none } :=
  ⟨rfl, by decide⟩

/-- C8 amended: a reaction page whose container is found, yields zero
valid likers and holds no See-more anchor gives the empty liker list with
see_more_link None; a page without the container gives the page-level
None sentinel; and the two outcomes are distinct values. -/
theorem claim_C8 :
    (∀ doc main : Node, findObjectsContainer doc = some main → likersOf main = [] →
      seeMoreOf main = none →
      parse_reaction_page doc = some { likers := [], see_more_link := none }) ∧
    (∀ doc : Node, findObjectsContainer doc = none → parse_reaction_page doc = none) ∧
    some (ReactionResult.mk [] none) ≠ (none : Option ReactionResult) := by
  refine ⟨?_, ?_, by simp⟩
  · intro doc main hf hl hs
    simp [parse_reaction_page, hf, hl, hs]
  · intro doc hf
    simp [parse_reaction_page, hf]

/-- The container of the temporarily-unavailable reaction page of the
parse_reaction_page doctest: no valid liker and no See-more anchor. -/
def c8EmptyMain : Node :=
  .elem (lc "div") [(lc "id", lc "objects_container")] [
    .elem (lc "span") [] [.text (lc "The page you requested cannot be displayed")],
    .elem (lc "a") [(lc "href", lc "/home.php?rand=852723744")] [.text (lc "Back to home")]]

/-- The doctest page around c8EmptyMain. -/
def c8EmptyPage : Node := .elem (lc "html") [] [c8EmptyMain]

/-- The login page of the doctest: no objects_container at all. -/
def c8LoginPage : Node :=
  .elem (lc "html") [] [
    .elem (lc "input") [(lc "name", lc "login"), (lc "type", lc "submit")] []]

/-- Witness for C8 on the two doctest pages. -/
theorem claim_C8_witness :
    parse_reaction_page c8EmptyPage = some { likers := [], see_more_link := none } ∧
    parse_reaction_page c8LoginPage = none :=
  ⟨claim_C8.1 c8EmptyPage c8EmptyMain rfl rfl rfl, claim_C8.2.1 c8LoginPage rfl⟩

/-! ### Presence sentinel (claim C9) -/

/-- C9: in the presence feed, a last-active value of -1 yields an empty
times list and any value greater than -1 yields exactly one formatted
timestamp. -/
theorem claim_C9 : ∀ (fmt : Int → LChar) (lat : Int),
    (lat = -1 → latTimes fmt lat = []) ∧
    (-1 < lat → (latTimes fmt lat).length = 1) := by
  intro fmt lat
  constructor
  · intro h
    subst h
    simp [latTimes]
  · intro h
    simp [latTimes, h]

/-- Witness for C9 at the doctest timestamps. -/
theorem claim_C9_witness :
    latTimes (fun _ => lc "2017-07-14 04:40:01") (-1) = [] ∧
    (latTimes (fun _ => lc "2017-07-14 04:40:01") 1500000001).length = 1 :=
  ⟨(claim_C9 (fun _ => lc "2017-07-14 04:40:01") (-1)).1 rfl,
   (claim_C9 (fun _ => lc "2017-07-14 04:40:01") 1500000001).2 (by decide)⟩

end FBScrape
